import Mathlib

/-!
Shallow embedding of `examples/cholesteric.py` from the Berreman4x4
repository.

The script is straight-line glue over an optical-physics library: it builds
materials and a layered structure, sweeps 100 wavelengths, calls the
library solver `Structure.getJones` once per wavelength, post-processes the
resulting Jones matrices with elementwise squared moduli and sums, prints a
few diagnostics about the transmission matrix in the middle of the
stop-band, and plots two spectra.

The library `Berreman4x4` itself is not part of the sources under
verification; its functions (`getJones`, `circularJones`,
`extractCoefficient`, `rotation_v_theta`) are modelled as an abstract
interface `Lib`, and numpy's deterministic numeric kernels
(`numpy.linalg.eig`, `numpy.abs` on complex numbers, `numpy.angle`,
`numpy.tanh`) as an abstract interface `NumpyEnv`.  Floating-point numbers
are idealised as rationals; complex numbers as pairs of rationals.
-/

namespace Cholesteric

/-- A complex number, idealised as a pair of rationals (numpy complex). -/
structure Cx where
  re : ℚ
  im : ℚ
deriving DecidableEq

/-- Squared modulus: the exact value of numpy's `abs(z)**2`. -/
def Cx.abs2 (z : Cx) : ℚ := z.re * z.re + z.im * z.im

/-- Complex division (numpy's `z / w`); junk value when `w = 0`, as with
rational division. -/
def Cx.div (z w : Cx) : Cx :=
  ⟨(z.re * w.re + z.im * w.im) / w.abs2, (z.im * w.re - z.re * w.im) / w.abs2⟩

/-- Raw solver output: a numpy complex array of a priori unknown nesting,
as handed back by `Structure.getJones` (a 2-list of 2×2 matrices when the
black-box contract holds). -/
abbrev RawJones := List (List (List Cx))

/-- The shape contract of `Structure.getJones`: the result is a pair of
2×2 complex matrices, i.e. an array of shape (2, 2, 2). -/
def getJonesOk (m : RawJones) : Prop :=
  m.length = 2 ∧ ∀ mat ∈ m, mat.length = 2 ∧ ∀ row ∈ mat, row.length = 2

instance (m : RawJones) : Decidable (getJonesOk m) := by
  unfold getJonesOk; infer_instance

/-- Reading entry `[a, r, c]` of a raw solver result, with numpy-array
semantics idealised to total functions (out-of-range reads give 0). -/
def entry (m : RawJones) (a r c : ℕ) : Cx :=
  (((m.getD a []).getD r []).getD c ⟨0, 0⟩)

/-- A 2×2 complex matrix. -/
abbrev Mat2 := Fin 2 → Fin 2 → Cx

/-- Rebuilding a raw shape-(2,2,2) array from its two 2×2 matrices. -/
def rawOfPair (jr jt : Mat2) : RawJones :=
  [[[jr 0 0, jr 0 1], [jr 1 0, jr 1 1]],
   [[jt 0 0, jt 0 1], [jt 1 0, jt 1 1]]]

/-- Materials, as built by the `Berreman4x4` constructors the script calls.
Each constructor records exactly the arguments of the Python call. -/
inductive Material where
  | isotropicNonDispersive (n : ℚ)
  | uniaxialNonDispersive (no ne : ℚ)
  | rotated (m : Material) (r : List (List ℚ))
  | twisted (m : Material) (thickness : ℚ) (angle : ℚ) (div : ℕ)
deriving DecidableEq

/-- Half-spaces: the script only builds `IsotropicHalfSpace(glass)`. -/
inductive HalfSpace where
  | isotropic (m : Material)
deriving DecidableEq

/-- Layers: `InhomogeneousLayer(TN)` and `RepeatedLayers([IL], N)`. -/
inductive Layer where
  | inhomogeneous (m : Material)
  | repeated (ls : List Layer) (n : ℕ)

/-- The layered structure `Structure(front, [L], back)`. -/
structure Struct where
  front : HalfSpace
  layers : List Layer
  back : HalfSpace

/-- A wavelength-indexed array of shape (100, 2, 2, 2): the collected
Jones array `J`, viewed through typed indexing. -/
abbrev JonesArr := Fin 100 → Fin 2 → Fin 2 → Fin 2 → Cx

/-- A wavelength-indexed power array of shape (100, 2, 2, 2). -/
abbrev PowerArr := Fin 100 → Fin 2 → Fin 2 → Fin 2 → ℚ

/-- The abstract `Berreman4x4` library interface: the black-box functions
the script calls.  Their numeric behaviour is opaque to the script. -/
structure Lib where
  rotation_v_theta : List ℚ → ℚ → List (List ℚ)
  getJones : Struct → ℚ → ℚ → RawJones
  circularJones : JonesArr → JonesArr
  extractCoefficient : PowerArr → String → (Fin 100 → ℚ)

/-- Deterministic numpy numeric kernels used by the script. -/
structure NumpyEnv where
  eig : Mat2 → (Fin 2 → Cx) × Mat2
  absC : Cx → ℚ
  angle : Cx → ℚ
  tanh : ℚ → ℚ

/-! ### Script constants (lines 15–49 of `cholesteric.py`) -/

/-- `glass = Berreman4x4.IsotropicNonDispersiveMaterial(1.55)` -/
def glass : Material := Material.isotropicNonDispersive (155 / 100)

/-- `front = back = Berreman4x4.IsotropicHalfSpace(glass)`: the single
half-space object bound to both names. -/
def frontBack : HalfSpace := HalfSpace.isotropic glass

/-- `no = 1.5` -/
def n_o : ℚ := 15 / 10

/-- `ne = 1.6` -/
def n_e : ℚ := 16 / 10

/-- `Dn = ne - no` -/
def Dn : ℚ := n_e - n_o

/-- `n_med = (ne + no)/2` -/
def n_med : ℚ := (n_e + n_o) / 2

/-- Cholesteric pitch `p = 0.65e-6` (m). -/
def p : ℚ := 65 / 100000000

/-- `N = 25` half-pitch repetitions. -/
def Nrep : ℕ := 25

/-- `h = N * p/2` -/
def h : ℚ := (Nrep : ℚ) * p / 2

/-- `LC = UniaxialNonDispersiveMaterial(no, ne)`, then
`LC = LC.rotated(rotation_v_theta([0,1,0], pi/2))`.  `piQ` is the float
constant `pi` imported from the library, idealised as a rational. -/
def LC (lib : Lib) (piQ : ℚ) : Material :=
  Material.rotated (Material.uniaxialNonDispersive n_o n_e)
    (lib.rotation_v_theta [0, 1, 0] (piQ / 2))

/-- `TN = TwistedMaterial(LC, p/2, angle=+pi, div=40)` -/
def TN (lib : Lib) (piQ : ℚ) : Material :=
  Material.twisted (LC lib piQ) (p / 2) piQ 40

/-- `IL = InhomogeneousLayer(TN)` -/
def IL (lib : Lib) (piQ : ℚ) : Layer := Layer.inhomogeneous (TN lib piQ)

/-- `L = RepeatedLayers([IL], N)` -/
def L (lib : Lib) (piQ : ℚ) : Layer := Layer.repeated [IL lib piQ] Nrep

/-- `s = Structure(front, [L], back)`; `front` and `back` are the one
shared half-space object. -/
def sVal (lib : Lib) (piQ : ℚ) : Struct :=
  ⟨frontBack, [L lib piQ], frontBack⟩

/-- Normal incidence `Kx = 0.0`. -/
def Kx : ℚ := 0

/-- `lbda_min = 0.8e-6` (m). -/
def lbda_min : ℚ := 8 / 10000000

/-- `lbda_max = 1.2e-6` (m). -/
def lbda_max : ℚ := 12 / 10000000

/-- `lbda_B = p * n_med` -/
def lbda_B : ℚ := p * n_med

/-- The `j`-th point of `numpy.linspace(lbda_min, lbda_max, 100)`:
100 evenly spaced points including both endpoints, step
`(lbda_max - lbda_min)/99`. -/
def lbdaAt (j : ℕ) : ℚ := lbda_min + (j : ℚ) * ((lbda_max - lbda_min) / 99)

/-- `lbda_list = numpy.linspace(lbda_min, lbda_max, 100)` as a typed
100-vector. -/
def lbda_list (i : Fin 100) : ℚ := lbdaAt i

/-- `k0_list = 2*pi/lbda_list`, elementwise. -/
def k0_list (piQ : ℚ) (i : Fin 100) : ℚ := 2 * piQ / lbda_list i

/-- `lbda_B1 = p*no` -/
def lbda_B1 : ℚ := p * n_o

/-- `lbda_B2 = p*ne` -/
def lbda_B2 : ℚ := p * n_e

/-- `R_th = numpy.tanh(Dn/n_med*pi*h/p)**2`, analytic maximal reflection. -/
def R_th (env : NumpyEnv) (piQ : ℚ) : ℚ :=
  env.tanh (Dn / n_med * piQ * h / p) ^ 2

/-! ### The solver sweep (line 53) -/

/-- One solver call: the arguments `(s, Kx, k0)` of the list-comprehension
call `s.getJones(Kx, k0)` at the `j`-th wavelength of the sweep. -/
def callArgs (lib : Lib) (piQ : ℚ) (j : ℕ) : Struct × ℚ × ℚ :=
  (sVal lib piQ, Kx, 2 * piQ / lbdaAt j)

/-- The trace of solver calls the script makes, in program order: one call
per element of `k0_list`, in order of increasing index. -/
def callTrace (lib : Lib) (piQ : ℚ) : List (Struct × ℚ × ℚ) :=
  (List.range 100).map (callArgs lib piQ)

/-- `J = numpy.array([s.getJones(Kx,k0) for k0 in k0_list])`: the raw
results of the 100 solver calls, collected in order. -/
def Jlist (lib : Lib) (piQ : ℚ) : List RawJones :=
  (List.range 100).map (fun j => lib.getJones (sVal lib piQ) Kx (2 * piQ / lbdaAt j))

/-- Typed view of the collected array `J`: entry `J[i, a, r, c]`. -/
def Jmat (lib : Lib) (piQ : ℚ) : JonesArr :=
  fun i a r c => entry ((Jlist lib piQ).getD i []) a r c

/-! ### Post-processing (lines 54–98) -/

/-- `power = abs(J)**2`, elementwise squared modulus. -/
def power (lib : Lib) (piQ : ℚ) : PowerArr :=
  fun i a r c => (Jmat lib piQ i a r c).abs2

/-- `T_pp = Berreman4x4.extractCoefficient(power, 't_pp')` -/
def T_pp (lib : Lib) (piQ : ℚ) : Fin 100 → ℚ :=
  lib.extractCoefficient (power lib piQ) "t_pp"

/-- `R_pp = Berreman4x4.extractCoefficient(power, 'r_pp')` -/
def R_pp (lib : Lib) (piQ : ℚ) : Fin 100 → ℚ :=
  lib.extractCoefficient (power lib piQ) "r_pp"

/-- `T_sp = Berreman4x4.extractCoefficient(power, 't_sp')` -/
def T_sp (lib : Lib) (piQ : ℚ) : Fin 100 → ℚ :=
  lib.extractCoefficient (power lib piQ) "t_sp"

/-- `R_sp = Berreman4x4.extractCoefficient(power, 'r_sp')` -/
def R_sp (lib : Lib) (piQ : ℚ) : Fin 100 → ℚ :=
  lib.extractCoefficient (power lib piQ) "r_sp"

/-- `total_power = power.sum(axis=-1).sum(axis=-1) / 2`: for each
wavelength and each of the two matrices, the sum of the four entries of
the power array, halved. -/
def total_power (lib : Lib) (piQ : ℚ) (i : Fin 100) (a : Fin 2) : ℚ :=
  (∑ r : Fin 2, ∑ c : Fin 2, power lib piQ i a r c) / 2

/-- `(R_np, T_np) = numpy.transpose(total_power)`: first component. -/
def R_np (lib : Lib) (piQ : ℚ) (i : Fin 100) : ℚ := total_power lib piQ i 0

/-- `(R_np, T_np) = numpy.transpose(total_power)`: second component. -/
def T_np (lib : Lib) (piQ : ℚ) (i : Fin 100) : ℚ := total_power lib piQ i 1

/-- `i = numpy.argmin(abs(lbda_list - lbda_B))`: index of the first
minimum of the elementwise distance to the Bragg wavelength (numpy's
`argmin` returns the first occurrence of the minimum). -/
def stopBandIdx : ℕ :=
  (List.range 100).foldl
    (fun best j => if |lbdaAt j - lbda_B| < |lbdaAt best - lbda_B| then j else best) 0

/-- `T = J[i,1,:,:]`: the transmission matrix in the middle of the
stop-band, read from the collected array `J`. -/
def Tmid (lib : Lib) (piQ : ℚ) : Mat2 :=
  fun r c => entry ((Jlist lib piQ).getD stopBandIdx []) 1 r c

/-- `eigenvalues, eigenvectors = numpy.linalg.eig(T)` -/
def eigPair (env : NumpyEnv) (lib : Lib) (piQ : ℚ) : (Fin 2 → Cx) × Mat2 :=
  env.eig (Tmid lib piQ)

/-- The numeric arrays the script prints (lines 70–84), in print order:
eigenvalues, `abs(eigenvalues)**2`, eigenvectors, the column-normalised
eigenvectors `eigenvectors/eigenvectors[0,:]`, the moduli
`abs(eigenvectors[1,:]/eigenvectors[0,:])`, and the ellipticity angles
`180/pi*numpy.angle(eigenvectors[1,:]/eigenvectors[0,:])`. -/
structure Printed where
  eigenvalues : Fin 2 → Cx
  powerTransmission : Fin 2 → ℚ
  eigenvectors : Mat2
  normalized : Mat2
  ratioSP : Fin 2 → ℚ
  ellipticity : Fin 2 → ℚ

/-- The diagnostics printed by the script, as functions of the library
call results. -/
def printedOut (env : NumpyEnv) (lib : Lib) (piQ : ℚ) : Printed where
  eigenvalues := (eigPair env lib piQ).1
  powerTransmission := fun k => ((eigPair env lib piQ).1 k).abs2
  eigenvectors := (eigPair env lib piQ).2
  normalized := fun r c =>
    ((eigPair env lib piQ).2 r c).div ((eigPair env lib piQ).2 0 c)
  ratioSP := fun c =>
    env.absC (((eigPair env lib piQ).2 1 c).div ((eigPair env lib piQ).2 0 c))
  ellipticity := fun c =>
    180 / piQ * env.angle (((eigPair env lib piQ).2 1 c).div ((eigPair env lib piQ).2 0 c))

/-- `Jc = Berreman4x4.circularJones(J)` -/
def Jc (lib : Lib) (piQ : ℚ) : JonesArr := lib.circularJones (Jmat lib piQ)

/-- `power = abs(Jc)**2` (the second binding of `power`). -/
def powerC (lib : Lib) (piQ : ℚ) : PowerArr :=
  fun i a r c => (Jc lib piQ i a r c).abs2

/-- `R_RR = Berreman4x4.extractCoefficient(power, 'r_RR')` -/
def R_RR (lib : Lib) (piQ : ℚ) : Fin 100 → ℚ :=
  lib.extractCoefficient (powerC lib piQ) "r_RR"

/-- `T_RR = Berreman4x4.extractCoefficient(power, 't_RR')` -/
def T_RR (lib : Lib) (piQ : ℚ) : Fin 100 → ℚ :=
  lib.extractCoefficient (powerC lib piQ) "t_RR"

/-- `T_LL = Berreman4x4.extractCoefficient(power, 't_LL')` -/
def T_LL (lib : Lib) (piQ : ℚ) : Fin 100 → ℚ :=
  lib.extractCoefficient (powerC lib piQ) "t_LL"

/-- `R_LL = Berreman4x4.extractCoefficient(power, 'r_LL')` -/
def R_LL (lib : Lib) (piQ : ℚ) : Fin 100 → ℚ :=
  lib.extractCoefficient (powerC lib piQ) "r_LL"

/-! ### Plotting (lines 102–128) -/

/-- One `ax.plot(xs, ys, label=l)` call: a data series against the
x-values, with its legend label. -/
structure PlotCall where
  xs : Fin 100 → ℚ
  ys : Fin 100 → ℚ
  label : String

/-- The data series handed to the two `ax.plot` calls, in program order. -/
def plotCalls (lib : Lib) (piQ : ℚ) : List PlotCall :=
  [⟨lbda_list, R_RR lib piQ, "R_RR"⟩, ⟨lbda_list, T_RR lib piQ, "T_RR"⟩]

/-- The cyan rectangle `pyplot.Rectangle((lbda_B1,0), lbda_B2-lbda_B1, R_th)`. -/
def rectangleData (env : NumpyEnv) (piQ : ℚ) : ℚ × ℚ × ℚ × ℚ :=
  (lbda_B1, 0, lbda_B2 - lbda_B1, R_th env piQ)

/-! ### The script as an event trace -/

/-- Coarse classification of the script's top-level statements:
object construction, scalar setup arithmetic, a solver call, array
post-processing of solver results, printing a diagnostic, and a plotting
call. -/
inductive Phase where
  | construct
  | setup
  | solve
  | post
  | printDiag
  | plot
deriving DecidableEq

/-- The script's statements in program order, one `Phase` per executed
statement: lines 15–49 (construction and scalar setup), the 100 solver
calls of line 53, the array post-processing of lines 54–68, the print
statements of lines 69–84, the post-processing of lines 87–98, and the
plotting calls of lines 102–128. -/
def events : List Phase :=
  [.construct, .construct, .setup, .setup, .setup, .construct, .construct,
   .construct, .setup, .construct, .construct, .setup, .setup, .construct,
   .construct, .setup, .setup, .setup, .setup, .setup, .setup, .setup]
  ++ List.replicate 100 .solve
  ++ [.post, .post, .post, .post, .post, .post, .post, .post, .post, .post]
  ++ List.replicate 14 .printDiag
  ++ [.post, .post, .post, .post, .post, .post]
  ++ List.replicate 13 .plot

/-- Phase ordering used by the script: construction and setup, then the
solver loop, then post-processing and printing, then plotting. -/
def phaseRank : Phase → ℕ
  | .construct => 0
  | .setup => 0
  | .solve => 1
  | .post => 2
  | .printDiag => 2
  | .plot => 3

/-! ### Concrete instances of the abstract interfaces -/

/-- A shape-correct constant solver result (all-zero matrices). -/
def raw0 : RawJones :=
  [[[⟨0, 0⟩, ⟨0, 0⟩], [⟨0, 0⟩, ⟨0, 0⟩]], [[⟨0, 0⟩, ⟨0, 0⟩], [⟨0, 0⟩, ⟨0, 0⟩]]]

/-- A concrete library instance with constant outputs. -/
def lib0 : Lib where
  rotation_v_theta := fun _ _ => []
  getJones := fun _ _ _ => raw0
  circularJones := fun a => a
  extractCoefficient := fun _ _ _ => 0

/-- A concrete numpy environment with constant outputs. -/
def env0 : NumpyEnv where
  eig := fun _ => (fun _ => ⟨0, 0⟩, fun _ _ => ⟨0, 0⟩)
  absC := fun _ => 0
  angle := fun _ => 0
  tanh := fun _ => 0

/-! ### Helper lemmas -/

/-- The `i`-th entry of the collected array `J` is the result of the
`i`-th solver call. -/
lemma Jlist_getD (lib : Lib) (piQ : ℚ) (i : Fin 100) :
    (Jlist lib piQ).getD i [] =
      lib.getJones (sVal lib piQ) Kx (2 * piQ / lbdaAt i) := by
  have h : (i : ℕ) < 100 := i.isLt
  simp [Jlist, List.getD_eq_getElem?_getD, List.getElem?_map, List.getElem?_range, h]

/-- The `i`-th entry of the call trace. -/
lemma callTrace_getD (lib : Lib) (piQ : ℚ) (i : Fin 100) :
    (callTrace lib piQ).getD i (sVal lib piQ, 0, 0) =
      (sVal lib piQ, Kx, 2 * piQ / lbdaAt i) := by
  have h : (i : ℕ) < 100 := i.isLt
  simp [callTrace, callArgs, List.getD_eq_getElem?_getD, List.getElem?_map,
    List.getElem?_range, h]

set_option maxRecDepth 4000 in
/-- The phase ranks are nondecreasing along the statement trace. -/
lemma events_pairwise :
    List.Pairwise (fun a b => phaseRank a ≤ phaseRank b) events := by
  decide

/-- A `foldl` choosing between the accumulator and a list element stays
inside any set containing them all. -/
lemma foldl_choice_lt (q : ℕ → ℕ → Prop) [∀ a b, Decidable (q a b)]
    (n : ℕ) : ∀ (l : List ℕ) (b : ℕ), (∀ j ∈ l, j < n) → b < n →
    List.foldl (fun best j => if q j best then j else best) b l < n := by
  intro l
  induction l with
  | nil => intro b _ hb; simpa using hb
  | cons a t ih =>
      intro b hl hb
      simp only [List.foldl_cons]
      by_cases hq : q a b
      · simp only [if_pos hq]
        exact ih a (fun j hj => hl j (List.mem_cons_of_mem a hj))
          (hl a (List.mem_cons_self a t))
      · simp only [if_neg hq]
        exact ih b (fun j hj => hl j (List.mem_cons_of_mem a hj)) hb

/-- The stop-band index is in bounds for the 100-point sweep. -/
lemma stopBandIdx_lt : stopBandIdx < 100 := by
  unfold stopBandIdx
  exact foldl_choice_lt (fun j best => |lbdaAt j - lbda_B| < |lbdaAt best - lbda_B|)
    100 (List.range 100) 0 (fun j hj => List.mem_range.mp hj) (by norm_num)

/-! ### Claim theorems -/

/-- **C2.** The script sweeps wavelength by calling the solver once per
wavelength: the call trace has exactly 100 entries; the `i`-th call is
`s.getJones(Kx, k0)` with `Kx = 0` and `k0 = 2π/λᵢ`, where `λᵢ` is the
`i`-th point of `numpy.linspace(0.8e-6, 1.2e-6, 100)`; the wavelengths
are strictly increasing; and the `i`-th entry of the collected array `J`
is the result of the `i`-th call. -/
theorem c2_sweep_once_per_wavelength (lib : Lib) (piQ : ℚ) :
    (callTrace lib piQ).length = 100 ∧
    (∀ i : Fin 100, (callTrace lib piQ).getD i (sVal lib piQ, 0, 0)
        = (sVal lib piQ, 0, 2 * piQ / lbda_list i)) ∧
    StrictMono lbda_list ∧
    (Jlist lib piQ).length = 100 ∧
    (∀ i : Fin 100, (Jlist lib piQ).getD i []
        = lib.getJones (sVal lib piQ) 0 (2 * piQ / lbda_list i)) := by
  refine ⟨by simp [callTrace], ?_, ?_, by simp [Jlist], ?_⟩
  · intro i
    simpa [Kx, lbda_list] using callTrace_getD lib piQ i
  · intro i j hij
    have hval : (i : ℚ) < (j : ℚ) := by
      have : (i : ℕ) < (j : ℕ) := hij
      exact_mod_cast this
    have hstep : (0 : ℚ) < (lbda_max - lbda_min) / 99 := by
      norm_num [lbda_max, lbda_min]
    simp only [lbda_list, lbdaAt]
    exact add_lt_add_left (mul_lt_mul_of_pos_right hval hstep) _
  · intro i
    simpa [Kx, lbda_list] using Jlist_getD lib piQ i

/-- **C3.** Power coefficients come from elementwise squared moduli: every
entry of `power` is the squared modulus of the corresponding entry of `J`,
every entry of the circular-basis power array is the squared modulus of
the corresponding entry of `Jc`, and each of the eight extracted
coefficients is read from the power array so computed. -/
theorem c3_power_elementwise (lib : Lib) (piQ : ℚ) :
    (∀ i a r c, power lib piQ i a r c = (Jmat lib piQ i a r c).abs2) ∧
    (∀ i a r c, powerC lib piQ i a r c = (Jc lib piQ i a r c).abs2) ∧
    T_pp lib piQ = lib.extractCoefficient (power lib piQ) "t_pp" ∧
    R_pp lib piQ = lib.extractCoefficient (power lib piQ) "r_pp" ∧
    T_sp lib piQ = lib.extractCoefficient (power lib piQ) "t_sp" ∧
    R_sp lib piQ = lib.extractCoefficient (power lib piQ) "r_sp" ∧
    R_RR lib piQ = lib.extractCoefficient (powerC lib piQ) "r_RR" ∧
    T_RR lib piQ = lib.extractCoefficient (powerC lib piQ) "t_RR" ∧
    T_LL lib piQ = lib.extractCoefficient (powerC lib piQ) "t_LL" ∧
    R_LL lib piQ = lib.extractCoefficient (powerC lib piQ) "r_LL" :=
  ⟨fun _ _ _ _ => rfl, fun _ _ _ _ => rfl, rfl, rfl, rfl, rfl, rfl, rfl, rfl, rfl⟩

/-- **C4.** For every wavelength index, the unpolarized coefficients
`R_np i` and `T_np i` are half the sum of the four squared moduli of the
entries of the reflection matrix `J[i,0]` and the transmission matrix
`J[i,1]` respectively; `total_power` is the power array summed over its
last two axes and halved, and `(R_np, T_np)` is its transpose. -/
theorem c4_unpolarized_half_sum (lib : Lib) (piQ : ℚ) (i : Fin 100) :
    R_np lib piQ i =
      ((Jmat lib piQ i 0 0 0).abs2 + (Jmat lib piQ i 0 0 1).abs2 +
        (Jmat lib piQ i 0 1 0).abs2 + (Jmat lib piQ i 0 1 1).abs2) / 2 ∧
    T_np lib piQ i =
      ((Jmat lib piQ i 1 0 0).abs2 + (Jmat lib piQ i 1 0 1).abs2 +
        (Jmat lib piQ i 1 1 0).abs2 + (Jmat lib piQ i 1 1 1).abs2) / 2 ∧
    (∀ a, total_power lib piQ i a =
      (∑ r : Fin 2, ∑ c : Fin 2, power lib piQ i a r c) / 2) ∧
    R_np lib piQ i = total_power lib piQ i 0 ∧
    T_np lib piQ i = total_power lib piQ i 1 := by
  refine ⟨?_, ?_, fun _ => rfl, rfl, rfl⟩ <;>
    · simp only [R_np, T_np, total_power, power, Fin.sum_univ_two]
      ring

/-- **C5.** The chart plots the right-circular reflection and transmission
spectra against wavelength: the script's two `ax.plot` calls are exactly
`(lbda_list, R_RR)` and `(lbda_list, T_RR)`, each over the full
100-point sweep (x-values `lbda_list`). -/
theorem c5_plots_reflection_transmission (lib : Lib) (piQ : ℚ) :
    plotCalls lib piQ =
      [⟨lbda_list, R_RR lib piQ, "R_RR"⟩, ⟨lbda_list, T_RR lib piQ, "T_RR"⟩] ∧
    ∀ pc ∈ plotCalls lib piQ, pc.xs = lbda_list := by
  refine ⟨rfl, ?_⟩
  intro pc hpc
  simp only [plotCalls, List.mem_cons, List.not_mem_nil, or_false] at hpc
  rcases hpc with rfl | rfl <;> rfl

/-- **C8.** The front and back half-spaces of the structure are the one
shared object `IsotropicHalfSpace(glass)` with glass of index 1.55, and
every solver call in the trace receives a structure with this front-back
identity intact. -/
theorem c8_front_back_identical (lib : Lib) (piQ : ℚ) :
    (sVal lib piQ).front = (sVal lib piQ).back ∧
    (sVal lib piQ).front
      = HalfSpace.isotropic (Material.isotropicNonDispersive (155 / 100)) ∧
    ∀ call ∈ callTrace lib piQ, call.1.front = call.1.back := by
  refine ⟨rfl, rfl, ?_⟩
  intro call hc
  rcases List.mem_map.mp hc with ⟨j, _, rfl⟩
  rfl

/-- **C9.** The Bragg wavelength `lbda_B = p·n_med` lies strictly inside
the sweep interval, and the stop-band index
`numpy.argmin(abs(lbda_list - lbda_B))` is a valid index of the
100-element arrays, so the transmission matrix `T = J[i,1,:,:]` is
well-defined and read from the collected array at that index. -/
theorem c9_stopband_index_in_bounds :
    lbda_min < lbda_B ∧ lbda_B < lbda_max ∧
    ∀ (lib : Lib) (piQ : ℚ),
      stopBandIdx < (Jlist lib piQ).length ∧
      Tmid lib piQ
        = fun r c : Fin 2 => entry ((Jlist lib piQ).getD stopBandIdx []) 1 r c := by
  refine ⟨?_, ?_, fun lib piQ => ⟨?_, rfl⟩⟩
  · norm_num [lbda_min, lbda_B, p, n_med, n_e, n_o]
  · norm_num [lbda_max, lbda_B, p, n_med, n_e, n_o]
  · simpa [Jlist] using stopBandIdx_lt

/-- **C10.** Among the printed diagnostics, the "Corresponding power
transmission" value for each eigenvalue of the stop-band transmission
matrix is exactly the squared modulus of the printed eigenvalue, in the
same order. -/
theorem c10_printed_power_is_squared_modulus
    (env : NumpyEnv) (lib : Lib) (piQ : ℚ) (k : Fin 2) :
    (printedOut env lib piQ).powerTransmission k
      = ((printedOut env lib piQ).eigenvalues k).abs2 := rfl

/-- **C1.** Under the solver's black-box contract (modelled from the spec:
`Structure.getJones`, given the layer stack, the incidence parameter `Kx`
and a wavenumber `k0`, returns a complex array of shape (2,2,2), i.e. a
pair of 2×2 Jones matrices), every value the script collects into `J` is
exactly the pair of the two 2×2 complex matrices the script consumes it
as (`J[i,0,:,:]` and `J[i,1,:,:]`). -/
theorem c1_solver_contract (lib : Lib) (piQ : ℚ)
    (hc : ∀ st kx k0, getJonesOk (lib.getJones st kx k0)) (i : Fin 100) :
    (Jlist lib piQ).getD i [] =
      rawOfPair (fun r c => Jmat lib piQ i 0 r c) (fun r c => Jmat lib piQ i 1 r c) := by
  have hJ := Jlist_getD lib piQ i
  obtain ⟨hm2, hall⟩ := hc (sVal lib piQ) Kx (2 * piQ / lbdaAt i)
  obtain ⟨m0, m1, hm⟩ :=
    List.length_eq_two.mp hm2
  rw [hm] at hJ
  obtain ⟨h0len, h0rows⟩ := hall m0 (by rw [hm]; exact List.mem_cons_self _ _)
  obtain ⟨h1len, h1rows⟩ :=
    hall m1 (by rw [hm]; exact List.mem_cons_of_mem _ (List.mem_cons_self _ _))
  obtain ⟨r00, r01, h0⟩ := List.length_eq_two.mp h0len
  obtain ⟨r10, r11, h1⟩ := List.length_eq_two.mp h1len
  obtain ⟨a, b, hr00⟩ :=
    List.length_eq_two.mp (h0rows r00 (by rw [h0]; exact List.mem_cons_self _ _))
  obtain ⟨c, d, hr01⟩ :=
    List.length_eq_two.mp
      (h0rows r01 (by rw [h0]; exact List.mem_cons_of_mem _ (List.mem_cons_self _ _)))
  obtain ⟨e, f, hr10⟩ :=
    List.length_eq_two.mp (h1rows r10 (by rw [h1]; exact List.mem_cons_self _ _))
  obtain ⟨g, k, hr11⟩ :=
    List.length_eq_two.mp
      (h1rows r11 (by rw [h1]; exact List.mem_cons_of_mem _ (List.mem_cons_self _ _)))
  have hfull : (Jlist lib piQ).getD i []
      = [[[a, b], [c, d]], [[e, f], [g, k]]] := by
    rw [hJ, h0, h1, hr00, hr01, hr10, hr11]
  simp only [Jmat, hfull]
  rfl

/-- Witness for C1: the contract discharged by the constant shape-correct
solver `lib0`, at `pi ≈ 3` and wavelength index 0. -/
theorem c1_solver_contract_witness :
    (Jlist lib0 3).getD (0 : Fin 100) [] =
      rawOfPair (fun r c => Jmat lib0 3 0 0 r c) (fun r c => Jmat lib0 3 0 1 r c) :=
  c1_solver_contract lib0 3 (fun _ _ _ => by change getJonesOk raw0; decide) 0

/-- Positions of strictly increasing phase rank appear in program order. -/
lemma get_lt_of_rank_lt {i j : Fin events.length}
    (hr : phaseRank (events.get i) < phaseRank (events.get j)) : (i : ℕ) < (j : ℕ) := by
  rcases lt_trichotomy (i : ℕ) (j : ℕ) with hlt | heq | hgt
  · exact hlt
  · exact absurd hr (by rw [Fin.ext heq]; exact lt_irrefl _)
  · have hp := List.pairwise_iff_get.mp events_pairwise j i (Fin.lt_def.mpr hgt)
    exact absurd hr (not_lt.mpr hp)

/-- **C6.** The script's phases occur once each, in a fixed order: every
construction statement precedes every solver call, every solver call
precedes every post-processing statement, every diagnostic print precedes
every plotting call, and no solver call follows any print or plotting
statement — the solver is never called again after the loop ends. -/
theorem c6_phase_order :
    (∀ i j : Fin events.length,
      events.get i = Phase.construct → events.get j = Phase.solve → (i : ℕ) < j) ∧
    (∀ i j : Fin events.length,
      events.get i = Phase.solve → events.get j = Phase.post → (i : ℕ) < j) ∧
    (∀ i j : Fin events.length,
      events.get i = Phase.printDiag → events.get j = Phase.plot → (i : ℕ) < j) ∧
    (∀ i j : Fin events.length,
      events.get i = Phase.solve →
        (events.get j = Phase.printDiag ∨ events.get j = Phase.plot) → (i : ℕ) < j) := by
  refine ⟨?_, ?_, ?_, ?_⟩ <;> intro i j hi hj
  · exact get_lt_of_rank_lt (by rw [hi, hj]; decide)
  · exact get_lt_of_rank_lt (by rw [hi, hj]; decide)
  · exact get_lt_of_rank_lt (by rw [hi, hj]; decide)
  · rcases hj with hj | hj <;> exact get_lt_of_rank_lt (by rw [hi, hj]; decide)

set_option maxRecDepth 4000 in
/-- Witness for C6: the first statement is a construction, statement 22 is
the first solver call, and the former precedes the latter. -/
theorem c6_phase_order_witness :
    events.get ⟨0, by decide⟩ = Phase.construct ∧
    events.get ⟨22, by decide⟩ = Phase.solve ∧
    (0 : ℕ) < 22 :=
  ⟨rfl, rfl, c6_phase_order.1 ⟨0, by decide⟩ ⟨22, by decide⟩ rfl rfl⟩

/-- **C7.** Determinism: two runs of the script whose `Berreman4x4` calls
(`rotation_v_theta` at its call site, the 100 `getJones` calls, the
`circularJones` call, and the `extractCoefficient` calls for the plotted
coefficients) return the same values build the identical structure, print
identical diagnostics and hand identical data series to the plotting
calls; numpy's numeric kernels (`env`) are shared deterministic functions,
and the script introduces no nondeterminism of its own. -/
theorem c7_deterministic (env : NumpyEnv) (piQ : ℚ) (l1 l2 : Lib)
    (hrot : l1.rotation_v_theta [0, 1, 0] (piQ / 2)
      = l2.rotation_v_theta [0, 1, 0] (piQ / 2))
    (hJ : Jlist l1 piQ = Jlist l2 piQ)
    (_hcirc : l1.circularJones (Jmat l1 piQ) = l2.circularJones (Jmat l2 piQ))
    (hRR : l1.extractCoefficient (powerC l1 piQ) "r_RR"
      = l2.extractCoefficient (powerC l2 piQ) "r_RR")
    (hTR : l1.extractCoefficient (powerC l1 piQ) "t_RR"
      = l2.extractCoefficient (powerC l2 piQ) "t_RR") :
    sVal l1 piQ = sVal l2 piQ ∧
    printedOut env l1 piQ = printedOut env l2 piQ ∧
    plotCalls l1 piQ = plotCalls l2 piQ := by
  have hT : Tmid l1 piQ = Tmid l2 piQ := by
    funext r c
    simp only [Tmid, hJ]
  refine ⟨?_, ?_, ?_⟩
  · simp only [sVal, L, IL, TN, LC, hrot]
  · simp only [printedOut, eigPair, hT]
  · simp only [plotCalls, R_RR, T_RR, hRR, hTR]

/-- Witness for C7: two identical runs over the constant interfaces
produce identical structure, diagnostics and plot data. -/
theorem c7_deterministic_witness :
    sVal lib0 3 = sVal lib0 3 ∧
    printedOut env0 lib0 3 = printedOut env0 lib0 3 ∧
    plotCalls lib0 3 = plotCalls lib0 3 :=
  c7_deterministic env0 3 lib0 lib0 rfl rfl rfl rfl rfl

end Cholesteric

